import Mathlib

/-!
# Snipix backend: versioned timeline-state store and segment compiler

A shallow embedding of the core subsystems of the Snipix video-editing
backend:

* `backend/models/schemas.py` — the timeline data model (`TimelineState`,
  `TimelineStateDocument`, `VideoSegment`, audit-log actions);
* `backend/services/timeline_service.py` — `TimelineService` (save /
  get-current / get-by-version / history / restore / delete, project access
  validation, audit logging);
* `backend/api/timeline.py` — the `GET /{project_id}` route that synthesizes
  an empty timeline document when none is stored;
* `backend/services/media_service.py` — `MediaService.trim_video` and
  `MediaService.trim_video_segments` (segment extraction, concatenation and
  temp-file cleanup).

Modelling conventions:

* The MongoDB `timeline_states` collection is a `List SnapshotDoc` in
  insertion order together with a fresh-`ObjectId` counter; `find_one`
  returns the first document in that order matching the filter,
  `update_many` maps over all matches, `update_one` / `delete_one` act on
  the first match.  Because every real update also rewrites the wall-clock
  `updated_at` field, a matched document always counts as modified, so the
  modelled `modified_count` / `deleted_count` is 1 exactly when a document
  matched the filter.  Wall-clock timestamps themselves (`created_at`,
  `updated_at`) carry no logic and are not modelled.
* Python floats are modelled as `Rat`; the claims under study perform only
  comparisons on them, never rounding-sensitive arithmetic.
* The dynamically typed values that can appear in audit-log `details` and
  keyframe payloads are modelled by the scalar type `PyValue`.
* FFmpeg is a black box: each invocation either succeeds (producing exactly
  its output file) or fails (producing nothing), as chosen by an explicit
  oracle passed to the embedded function.
* Service methods return the final state alongside the `Except` result, so
  mutations performed before an exception is raised stay visible.
-/

namespace Snipix

/-- Scalar model of a dynamically typed Python value (audit-log details,
keyframe payloads). -/
inductive PyValue where
  | pynone
  | pybool (b : Bool)
  | num (q : Rat)
  | str (s : String)
deriving DecidableEq

/-- `ClipType` enum from `models/schemas.py`. -/
inductive ClipType where
  | video | audio | text | effect | overlay
deriving DecidableEq

/-- `LayerType` enum from `models/schemas.py`. -/
inductive LayerType where
  | video | audio | text | effect | overlay
deriving DecidableEq

/-- `ClipProperties` from `models/schemas.py` (the `position` dict is
flattened to its two keys). -/
structure ClipProperties where
  opacity : Rat := 1
  scale : Rat := 1
  posX : Rat := 0
  posY : Rat := 0
  rotation : Rat := 0
deriving DecidableEq

/-- `Keyframe` from `models/schemas.py`. -/
structure Keyframe where
  id : String
  time : Rat
  property : String
  value : PyValue
  easing : String := "linear"
deriving DecidableEq

/-- `Clip` from `models/schemas.py`. -/
structure Clip where
  id : String
  type : ClipType
  start_time : Rat
  end_time : Rat
  duration : Rat
  source_path : Option String := none
  content : Option String := none
  properties : ClipProperties := {}
  keyframes : List Keyframe := []
deriving DecidableEq

/-- `Layer` from `models/schemas.py`. -/
structure Layer where
  id : String
  name : String
  type : LayerType
  clips : List Clip := []
  is_visible : Bool := true
  is_locked : Bool := false
  is_muted : Bool := false
  order : Int := 0
deriving DecidableEq

/-- `Marker` from `models/schemas.py`. -/
structure Marker where
  id : String
  time : Rat
  label : String
  color : String := "#6366f1"
deriving DecidableEq

/-- `TimelineState` from `models/schemas.py`, with the same field defaults. -/
structure TimelineState where
  layers : List Layer := []
  playhead_time : Rat := 0
  zoom : Rat := 1
  duration : Rat := 0
  markers : List Marker := []
  selected_clips : List String := []
  is_playing : Bool := false
  is_snapping : Bool := true
deriving DecidableEq

/-- A stored `timeline_states` document (`TimelineStateDocument` in
`models/schemas.py`).  `sid` models the MongoDB `_id`, drawn from a fresh
counter at insertion time. -/
structure SnapshotDoc where
  sid : Nat
  project_id : String
  timeline_state : TimelineState
  is_current : Bool
  version : Nat
  description : Option String := none
  created_by : String
  change_summary : Option String := none
deriving DecidableEq

/-- A `projects` document, restricted to the fields `TimelineService`
reads: `_id` (as its string form), the owner `user_id`, `collaborators`
and the soft-delete flag. -/
structure ProjectDoc where
  id : String
  user_id : String
  collaborators : List String := []
  is_deleted : Bool := false
deriving DecidableEq

/-- The `timeline_states` collection: documents in insertion order plus the
fresh-`ObjectId` counter. -/
structure TimelineDB where
  snaps : List SnapshotDoc := []
  nextId : Nat := 0
deriving DecidableEq

/-- `AuditLogAction` enum from `models/schemas.py`. -/
inductive AuditAction where
  | create | update | delete | soft_delete | restore
  | view | export | share | upload | process
deriving DecidableEq

/-- An `audit_logs` document as written by
`TimelineService._create_audit_log`. -/
structure AuditEntry where
  user_id : String
  action : AuditAction
  resource_type : String
  resource_id : Option String := none
  details : List (String × PyValue) := []
  success : Bool := true
deriving DecidableEq

/-- The persistent state visible to `TimelineService`: the read-only
`projects` collection, the `timeline_states` collection, and the
append-only `audit_logs` collection. -/
structure Env where
  projects : List ProjectDoc
  db : TimelineDB := {}
  audit : List AuditEntry := []
deriving DecidableEq

/-- The exception classes of `utils/error_handlers.py` that the embedded
code can raise, together with the `accessDenied` and `conflictError` kinds
that the spec's error taxonomy (§7) names but that have no counterpart
class in the source; the embedded code never produces those two. -/
inductive SvcError where
  | databaseError (msg : String)
  | operationError (msg : String)
  | validationError (msg : String)
  | accessDenied (msg : String)
  | conflictError (msg : String)
deriving DecidableEq

/-- Is this error the spec's `AccessDenied` kind? -/
def SvcError.isAccessDenied : SvcError → Bool
  | .accessDenied _ => true
  | _ => false

/-- Is this error the spec's `ConflictError` kind? -/
def SvcError.isConflictError : SvcError → Bool
  | .conflictError _ => true
  | _ => false

/-- Is this error the `ValidationError` class? -/
def SvcError.isValidationError : SvcError → Bool
  | .validationError _ => true
  | _ => false

/-- The error carried by a failed result, if any. -/
def resultError? {α : Type} : Except SvcError α → Option SvcError
  | .error e => some e
  | .ok _ => none

/-! ## Collection primitives -/

/-- Does the snapshot belong to the project?  (filter `project_id = pid`). -/
def isProj (pid : String) (s : SnapshotDoc) : Bool :=
  s.project_id == pid

/-- The filter `{project_id: pid, is_current: true}`. -/
def isCur (pid : String) (s : SnapshotDoc) : Bool :=
  s.project_id == pid && s.is_current

/-- One document's image under
`update_many({project_id: pid, is_current: true}, {$set: {is_current: false}})`. -/
def unsetCur (pid : String) (s : SnapshotDoc) : SnapshotDoc :=
  if isCur pid s then { s with is_current := false } else s

/-- `update_many({project_id: pid, is_current: true}, {$set: {is_current: false}})`. -/
def unsetCurrent (pid : String) (snaps : List SnapshotDoc) : List SnapshotDoc :=
  snaps.map (unsetCur pid)

/-- `{$set: {is_current: true}}` on one document. -/
def setCur (s : SnapshotDoc) : SnapshotDoc :=
  { s with is_current := true }

/-- The filter `{_id: ObjectId(t)}`. -/
def sidIs (t : Nat) (s : SnapshotDoc) : Bool :=
  s.sid == t

/-- `update_one(filter, {$set: ...})`: rewrite the first matching document;
the second component is the `modified_count` (1 when a document matched,
because the real update always rewrites `updated_at`). -/
def updateFirst (p : SnapshotDoc → Bool) (f : SnapshotDoc → SnapshotDoc) :
    List SnapshotDoc → List SnapshotDoc × Nat
  | [] => ([], 0)
  | s :: rest =>
    if p s then (f s :: rest, 1)
    else
      let r := updateFirst p f rest
      (s :: r.1, r.2)

/-- `delete_one(filter)`: remove the first matching document; the second
component is the `deleted_count`. -/
def removeFirst (p : SnapshotDoc → Bool) :
    List SnapshotDoc → List SnapshotDoc × Nat
  | [] => ([], 0)
  | s :: rest =>
    if p s then (rest, 1)
    else
      let r := removeFirst p rest
      (s :: r.1, r.2)

/-- The version of `find_one({project_id: pid}, sort=[("version", -1)])`,
taken as 0 when the project has no snapshot — exactly the
`latest_state.get("version", 0) if latest_state else 0` the service adds 1
to. -/
def latestVersion (pid : String) (snaps : List SnapshotDoc) : Nat :=
  ((snaps.filter (isProj pid)).map (fun s => s.version)).foldl max 0

/-! ## TimelineService -/

/-- `TimelineStateCreate` from `models/schemas.py`. -/
structure TimelineStateCreate where
  project_id : String
  timeline_state : TimelineState
  description : Option String := none
  change_summary : Option String := none
deriving DecidableEq

/-- `TimelineService._has_project_access`: owner or collaborator. -/
def hasProjectAccess (project : ProjectDoc) (user_id : String) : Bool :=
  project.user_id == user_id || project.collaborators.contains user_id

/-- `TimelineService._validate_project_access`: look the project up with
`{_id: ObjectId(project_id), is_deleted: false}`, then check permissions;
`none` for a missing or soft-deleted project and for a caller with no
access. -/
def validateProjectAccess (projects : List ProjectDoc)
    (project_id user_id : String) : Option ProjectDoc :=
  match projects.find? (fun p => p.id == project_id && !p.is_deleted) with
  | none => none
  | some p => if hasProjectAccess p user_id then some p else none

/-- The f-string `f"Project {project_id} not found or access denied"`. -/
def accessDeniedMsg (project_id : String) : String :=
  "Project " ++ project_id ++ " not found or access denied"

/-- `TimelineService._create_audit_log`: append one `audit_logs` document
(`success: true`); its own failures are swallowed and are not modelled. -/
def createAuditLog (user_id : String) (action : AuditAction)
    (resource_type : String) (resource_id : Option String)
    (details : List (String × PyValue)) (env : Env) : Env :=
  { env with audit := env.audit ++
      [{ user_id := user_id, action := action, resource_type := resource_type,
         resource_id := resource_id, details := details }] }

/-- An optional string as a `PyValue` detail. -/
def optStr : Option String → PyValue
  | none => .pynone
  | some s => .str s

/-- `TimelineService.save_timeline_state`: validate access, unset
`is_current` on the project's current snapshots, compute the next version
from the highest stored one, insert the new snapshot as current, audit, and
return the inserted document. -/
def save_timeline_state (timeline_data : TimelineStateCreate)
    (user_id : String) (env : Env) : Except SvcError SnapshotDoc × Env :=
  match validateProjectAccess env.projects timeline_data.project_id user_id with
  | none =>
    (.error (.validationError (accessDeniedMsg timeline_data.project_id)), env)
  | some _ =>
    let snaps1 := unsetCurrent timeline_data.project_id env.db.snaps
    let next_version := latestVersion timeline_data.project_id snaps1 + 1
    let doc : SnapshotDoc :=
      { sid := env.db.nextId,
        project_id := timeline_data.project_id,
        timeline_state := timeline_data.timeline_state,
        is_current := true,
        version := next_version,
        description := timeline_data.description,
        created_by := user_id,
        change_summary := timeline_data.change_summary }
    let env1 : Env :=
      { env with db := { snaps := snaps1 ++ [doc], nextId := env.db.nextId + 1 } }
    let env2 := createAuditLog user_id .create "timeline_state"
      (some (toString doc.sid))
      [("project_id", .str timeline_data.project_id),
       ("version", .num next_version),
       ("description", optStr timeline_data.description)] env1
    (.ok doc, env2)

/-- `TimelineService.get_current_timeline_state`: validate access, return
the document matching `{project_id, is_current: true}` (auditing a view),
or `none` when there is no current snapshot.  The source's defaulting of
missing document fields is a no-op here because modelled documents always
carry every field. -/
def get_current_timeline_state (project_id user_id : String) (env : Env) :
    Except SvcError (Option SnapshotDoc) × Env :=
  match validateProjectAccess env.projects project_id user_id with
  | none => (.error (.validationError (accessDeniedMsg project_id)), env)
  | some _ =>
    match env.db.snaps.find? (isCur project_id) with
    | none => (.ok none, env)
    | some doc =>
      let env1 := createAuditLog user_id .view "timeline_state"
        (some (toString doc.sid)) [("project_id", .str project_id)] env
      (.ok (some doc), env1)

/-- `TimelineService.get_timeline_state_by_version`: validate access,
return the first document matching `{project_id, version}` (auditing a
view), or `none`. -/
def get_timeline_state_by_version (project_id : String) (version : Nat)
    (user_id : String) (env : Env) :
    Except SvcError (Option SnapshotDoc) × Env :=
  match validateProjectAccess env.projects project_id user_id with
  | none => (.error (.validationError (accessDeniedMsg project_id)), env)
  | some _ =>
    match env.db.snaps.find?
        (fun s => s.project_id == project_id && s.version == version) with
    | none => (.ok none, env)
    | some doc =>
      let env1 := createAuditLog user_id .view "timeline_state"
        (some (toString doc.sid))
        [("project_id", .str project_id), ("version", .num version)] env
      (.ok (some doc), env1)

/-- `TimelineService.get_timeline_history`: validate access, return the
project's snapshots sorted by version descending, then paginated by
`skip`/`limit`. -/
def get_timeline_history (project_id user_id : String)
    (limit : Nat := 20) (skip : Nat := 0) (env : Env) :
    Except SvcError (List SnapshotDoc) × Env :=
  match validateProjectAccess env.projects project_id user_id with
  | none => (.error (.validationError (accessDeniedMsg project_id)), env)
  | some _ =>
    let sorted := (env.db.snaps.filter (isProj project_id)).insertionSort
      (fun a b => b.version ≤ a.version)
    (.ok ((sorted.drop skip).take limit), env)

/-- `TimelineService.restore_timeline_state`: validate access, read the
target snapshot by version (through `get_timeline_state_by_version`,
before any flag is touched), unset `is_current` on the project's current
snapshots, set it on the target, audit, and return the snapshot *as it was
read*. -/
def restore_timeline_state (project_id : String) (version : Nat)
    (user_id : String) (env : Env) :
    Except SvcError (Option SnapshotDoc) × Env :=
  match validateProjectAccess env.projects project_id user_id with
  | none => (.error (.validationError (accessDeniedMsg project_id)), env)
  | some _ =>
    match get_timeline_state_by_version project_id version user_id env with
    | (.error e, env1) => (.error e, env1)
    | (.ok none, env1) => (.ok none, env1)
    | (.ok (some target), env1) =>
      let snaps1 := unsetCurrent project_id env1.db.snaps
      let r := updateFirst (sidIs target.sid) setCur snaps1
      let env2 : Env := { env1 with db := { env1.db with snaps := r.1 } }
      if r.2 == 0 then
        (.error (.operationError "Failed to restore timeline state"), env2)
      else
        let env3 := createAuditLog user_id .update "timeline_state"
          (some (toString target.sid))
          [("action", .str "restore"), ("project_id", .str project_id),
           ("version", .num version)] env2
        (.ok (some target), env3)

/-- `TimelineService.delete_timeline_state`: look the snapshot up by id
(`false` when absent), validate access through its project, refuse to
delete the current snapshot, otherwise hard-delete and audit. -/
def delete_timeline_state (timeline_id : Nat) (user_id : String)
    (env : Env) : Except SvcError Bool × Env :=
  match env.db.snaps.find? (sidIs timeline_id) with
  | none => (.ok false, env)
  | some existing =>
    match validateProjectAccess env.projects existing.project_id user_id with
    | none =>
      (.error (.validationError (accessDeniedMsg existing.project_id)), env)
    | some _ =>
      if existing.is_current then
        (.error (.validationError "Cannot delete current timeline state"), env)
      else
        let r := removeFirst (sidIs timeline_id) env.db.snaps
        let env1 : Env := { env with db := { env.db with snaps := r.1 } }
        if r.2 == 0 then
          (.error (.operationError "Failed to delete timeline state"), env1)
        else
          let env2 := createAuditLog user_id .delete "timeline_state"
            (some (toString timeline_id))
            [("project_id", .str existing.project_id),
             ("version", .num existing.version)] env1
          (.ok true, env2)

/-- The empty `TimelineState` literal built inline in
`api/timeline.py::get_timeline_state` for never-saved projects. -/
def emptyTimelineState : TimelineState :=
  { layers := [], playhead_time := 0, zoom := 1, duration := 0,
    markers := [], selected_clips := [], is_playing := false,
    is_snapping := true }

/-- `api/timeline.py::get_timeline_state` (route `GET /{project_id}`):
delegate to the service and, when no current snapshot exists, synthesize —
without persisting — an empty `TimelineStateDocument` with `version=1`,
`is_current=true` and a fresh ephemeral id. -/
def api_get_timeline_state (project_id user_id : String) (env : Env) :
    Except SvcError SnapshotDoc × Env :=
  match get_current_timeline_state project_id user_id env with
  | (.error e, env1) => (.error e, env1)
  | (.ok (some doc), env1) => (.ok doc, env1)
  | (.ok none, env1) =>
    (.ok { sid := env1.db.nextId,
           project_id := project_id,
           timeline_state := emptyTimelineState,
           is_current := true,
           version := 1,
           created_by := user_id }, env1)

/-! ## Operation sequences over the store -/

/-- One store-mutating operation of the versioned state store. -/
inductive Op where
  | save (timeline_data : TimelineStateCreate) (user_id : String)
  | restore (project_id : String) (version : Nat) (user_id : String)
  | delete (timeline_id : Nat) (user_id : String)

/-- Run one operation, keeping whatever state it left behind (failed
operations keep the state they had mutated so far, like raised
exceptions do). -/
def applyOp (env : Env) : Op → Env
  | .save d u => (save_timeline_state d u env).2
  | .restore p v u => (restore_timeline_state p v u env).2
  | .delete t u => (delete_timeline_state t u env).2

/-- Run a sequence of operations. -/
def runOps (env : Env) (ops : List Op) : Env :=
  ops.foldl applyOp env

/-- The store of a fresh deployment: given projects, no snapshots, no audit
entries. -/
def initEnv (projects : List ProjectDoc) : Env :=
  { projects := projects }

/-- Does the project have at least one stored snapshot? -/
def hasProj (pid : String) (snaps : List SnapshotDoc) : Bool :=
  snaps.any (isProj pid)

/-- How many stored snapshots of the project are flagged current? -/
def curCount (pid : String) (snaps : List SnapshotDoc) : Nat :=
  snaps.countP (isCur pid)

/-! ## MediaService: trim_video and trim_video_segments

File names in `media_service.py` are deterministic f-strings over the
source file's basename; the constructors of `MediaFile` denote exactly
those shapes (all under `processed_dir`), which keeps distinct shapes
distinct just as the underlying strings are:

* `source p` — the caller-supplied `video_path`;
* `trimmedOutput b` — `f"trimmed_{basename}"` written by `trim_video`;
* `segmentsOutput b` — `f"segments_{basename}"` written by
  `trim_video_segments`;
* `tempSegment i b` — `f"temp_segment_{i}_{basename}"`;
* `concatList` — `"concat_list.txt"`.

The filesystem is the list of files on disk in creation order; an FFmpeg
invocation either succeeds, creating exactly its output file, or fails,
creating nothing, as decided by the oracles `extractOk` / `concatOk`.
-/

/-- `os.path.basename`: the part of the path after the last slash. -/
def basename (p : String) : String :=
  ⟨(p.data.reverse.takeWhile (fun c => c != '/')).reverse⟩

/-- A file name occurring in the segment-compiler code paths. -/
inductive MediaFile where
  | source (p : String)
  | trimmedOutput (base : String)
  | segmentsOutput (base : String)
  | tempSegment (i : Nat) (base : String)
  | concatList
deriving DecidableEq

/-- Files on disk, in creation order. -/
abbrev FS := List MediaFile

/-- Creating a file (`ffmpeg ... .overwrite_output().run()` or `open(f, "w")`):
appends it when absent, overwrites in place when present. -/
def fsCreate (f : MediaFile) (fs : FS) : FS :=
  if fs.contains f then fs else fs ++ [f]

/-- The cleanup loop
`for temp_file in temp_files: if os.path.exists(temp_file): os.remove(temp_file)`. -/
def cleanupTemps (temps : List MediaFile) (fs : FS) : FS :=
  temps.foldl (fun acc t => if acc.contains t then acc.erase t else acc) fs

/-- The basename used for derived file names: the caller passes the source
path, whose basename the f-strings embed. -/
def mediaBase : MediaFile → String
  | .source p => basename p
  | .trimmedOutput b => "trimmed_" ++ b
  | .segmentsOutput b => "segments_" ++ b
  | .tempSegment i b => "temp_segment_" ++ toString i ++ "_" ++ b
  | .concatList => "concat_list.txt"

/-- `VideoSegment` from `models/schemas.py`: the request schema declares
both fields as plain floats, with no bound on either. -/
structure VideoSegment where
  startTime : Rat
  duration : Rat
deriving DecidableEq

instance {ε α : Type} [DecidableEq ε] [DecidableEq α] :
    DecidableEq (Except ε α) := fun a b =>
  match a, b with
  | .ok x, .ok y => if h : x = y then isTrue (by rw [h]) else isFalse (by simp [h])
  | .error x, .error y => if h : x = y then isTrue (by rw [h]) else isFalse (by simp [h])
  | .ok _, .error _ => isFalse (by simp)
  | .error _, .ok _ => isFalse (by simp)

/-- Outcome of a segment-compiler call: the returned path or raised error,
the files on disk when the call exits, and how many times the transcoder
was invoked. -/
structure TrimRun where
  result : Except SvcError MediaFile
  fs : FS
  invocations : Nat
deriving DecidableEq

/-- `MediaService.trim_video`: one FFmpeg extract producing
`f"trimmed_{basename}"`; on failure the exception is logged and re-raised. -/
def trim_video (video_path : MediaFile) (start_time end_time : Rat)
    (ok : Bool) (fs : FS) : TrimRun :=
  let output := MediaFile.trimmedOutput (mediaBase video_path)
  if ok then { result := .ok output, fs := fsCreate output fs, invocations := 1 }
  else { result := .error (.operationError "Failed to trim video"), fs := fs,
         invocations := 1 }

/-- The per-segment extraction loop of the multi-segment path: for each
segment in order, invoke FFmpeg into `f"temp_segment_{i}_{basename}"` and
append the name to `temp_files`; stop at the first failure.  Returns
(all-succeeded?, temp_files, disk, invocation count). -/
def extractLoop (base : String) (extractOk : Nat → Bool) :
    List VideoSegment → Nat → FS → Bool × List MediaFile × FS × Nat
  | [], _, fs => (true, [], fs, 0)
  | _ :: rest, i, fs =>
    if extractOk i then
      let t := MediaFile.tempSegment i base
      let r := extractLoop base extractOk rest (i + 1) (fsCreate t fs)
      (r.1, t :: r.2.1, r.2.2.1, r.2.2.2 + 1)
    else (false, [], fs, 1)

/-- `MediaService.trim_video_segments`: empty list → return the input
path; sort by `startTime`; one segment → `trim_video` fast path; otherwise
extract every segment to a temp file, write `concat_list.txt`, run the
concat invocation, and clean up.  On success the cleanup removes the temp
files and the concat list; the `except` handler that runs when an extract
or the concat fails removes only the temp files. -/
def trim_video_segments (video_path : MediaFile)
    (segments : List VideoSegment) (extractOk : Nat → Bool)
    (concatOk : Bool) (fs : FS) : TrimRun :=
  if segments.isEmpty then
    { result := .ok video_path, fs := fs, invocations := 0 }
  else
    let sorted := segments.insertionSort (fun a b => a.startTime ≤ b.startTime)
    let output := MediaFile.segmentsOutput (mediaBase video_path)
    match sorted with
    | [] => { result := .ok video_path, fs := fs, invocations := 0 }
    | [segment] =>
      trim_video video_path segment.startTime
        (segment.startTime + segment.duration) (extractOk 0) fs
    | _ =>
      let r := extractLoop (mediaBase video_path) extractOk sorted 0 fs
      let temp_files := r.2.1
      if r.1 then
        let fs1 := fsCreate .concatList r.2.2.1
        if concatOk then
          let fs2 := fsCreate output fs1
          let fs3 := cleanupTemps temp_files fs2
          let fs4 := if fs3.contains MediaFile.concatList
            then fs3.erase MediaFile.concatList else fs3
          { result := .ok output, fs := fs4, invocations := r.2.2.2 + 1 }
        else
          { result := .error (.operationError "Failed to concatenate segments"),
            fs := cleanupTemps temp_files fs1, invocations := r.2.2.2 + 1 }
      else
        { result := .error (.operationError "Failed to extract segment"),
          fs := cleanupTemps temp_files r.2.2.1, invocations := r.2.2.2 }

/-- Is the file one of the per-segment temporary extract files? -/
def MediaFile.isTempSegment : MediaFile → Bool
  | .tempSegment _ _ => true
  | _ => false

/-- The store invariant maintained by the versioned state store: `_id`s are
fresh and pairwise distinct, and every project that has at least one stored
snapshot has exactly one flagged current. -/
def Inv (db : TimelineDB) : Prop :=
  (∀ s ∈ db.snaps, s.sid < db.nextId) ∧
  (db.snaps.map SnapshotDoc.sid).Nodup ∧
  ∀ pid, hasProj pid db.snaps = true → curCount pid db.snaps = 1

/-! ## Pointwise facts about the document transformers -/

theorem unsetCur_sid (pid : String) (s : SnapshotDoc) :
    (unsetCur pid s).sid = s.sid := by
  unfold unsetCur; split <;> rfl

theorem unsetCur_project_id (pid : String) (s : SnapshotDoc) :
    (unsetCur pid s).project_id = s.project_id := by
  unfold unsetCur; split <;> rfl

theorem unsetCur_version (pid : String) (s : SnapshotDoc) :
    (unsetCur pid s).version = s.version := by
  unfold unsetCur; split <;> rfl

theorem unsetCur_idem (pid : String) (s : SnapshotDoc) :
    unsetCur pid (unsetCur pid s) = unsetCur pid s := by
  unfold unsetCur isCur
  split <;> simp_all

theorem setCur_sid (s : SnapshotDoc) : (setCur s).sid = s.sid := rfl

theorem setCur_project_id (s : SnapshotDoc) :
    (setCur s).project_id = s.project_id := rfl

theorem setCur_version (s : SnapshotDoc) : (setCur s).version = s.version := rfl

theorem setCur_unsetCur_setCur (pid : String) (s : SnapshotDoc) :
    setCur (unsetCur pid (setCur s)) = setCur s := by
  unfold setCur unsetCur isCur
  split <;> rfl

theorem sidIs_unsetCur (t : Nat) (pid : String) (s : SnapshotDoc) :
    sidIs t (unsetCur pid s) = sidIs t s := by
  simp [sidIs, unsetCur_sid]

theorem sidIs_setCur (t : Nat) (s : SnapshotDoc) :
    sidIs t (setCur s) = sidIs t s := rfl

theorem isProj_unsetCur (pid qid : String) (s : SnapshotDoc) :
    isProj qid (unsetCur pid s) = isProj qid s := by
  simp [isProj, unsetCur_project_id]

theorem isProj_setCur (qid : String) (s : SnapshotDoc) :
    isProj qid (setCur s) = isProj qid s := rfl

theorem isCur_unsetCur_self (pid : String) (s : SnapshotDoc) :
    isCur pid (unsetCur pid s) = false := by
  unfold unsetCur
  split
  · simp_all [isCur]
  · simp_all

theorem isCur_unsetCur_ne (pid qid : String) (h : qid ≠ pid) (s : SnapshotDoc) :
    isCur qid (unsetCur pid s) = isCur qid s := by
  unfold unsetCur
  split
  · rename_i hc
    unfold isCur at hc ⊢
    simp only [Bool.and_eq_true, beq_iff_eq] at hc
    have : (s.project_id == qid) = false := by
      simp [hc.1, Ne.symm h]
    simp [this]
  · rfl

theorem isCur_setCur_of_proj (pid : String) (s : SnapshotDoc)
    (h : isProj pid s = true) : isCur pid (setCur s) = true := by
  unfold isProj at h
  simp [isCur, setCur, h]

theorem isCur_setCur_of_not_proj (pid : String) (s : SnapshotDoc)
    (h : isProj pid s = false) : isCur pid (setCur s) = false := by
  unfold isProj at h
  simp [isCur, setCur, h]

theorem isCur_isProj (pid : String) (s : SnapshotDoc)
    (h : isCur pid s = true) : isProj pid s = true := by
  unfold isCur at h
  unfold isProj
  exact (Bool.and_eq_true .. ▸ h).1

/-! ## Lemmas about `updateFirst`, `removeFirst`, `unsetCurrent` -/

theorem updateFirst_countP_pres (p q : SnapshotDoc → Bool)
    (f : SnapshotDoc → SnapshotDoc) (l : List SnapshotDoc)
    (h : ∀ x ∈ l, p x = true → q (f x) = q x) :
    ((updateFirst p f l).1).countP q = l.countP q := by
  induction l with
  | nil => rfl
  | cons s rest ih =>
    unfold updateFirst
    split
    · rename_i hp
      simp [List.countP_cons, h s (by simp) hp]
    · simp only [List.countP_cons]
      rw [ih (fun x hx => h x (by simp [hx]))]

theorem updateFirst_countP_one (p q : SnapshotDoc → Bool)
    (f : SnapshotDoc → SnapshotDoc) (l : List SnapshotDoc)
    (h0 : l.countP q = 0) (hm : ∃ x ∈ l, p x = true)
    (hs : ∀ x ∈ l, p x = true → q (f x) = true) :
    ((updateFirst p f l).1).countP q = 1 := by
  induction l with
  | nil => simp at hm
  | cons s rest ih =>
    have hqs : q s = false := by
      by_contra hq
      rw [Bool.not_eq_false] at hq
      simp [List.countP_cons, hq] at h0
    have hrest0 : rest.countP q = 0 := by
      simpa [List.countP_cons, hqs] using h0
    unfold updateFirst
    split
    · rename_i hp
      simp [List.countP_cons, hs s (by simp) hp, hrest0]
    · rename_i hp
      have hm' : ∃ x ∈ rest, p x = true := by
        rcases hm with ⟨x, hx, hpx⟩
        rcases List.mem_cons.mp hx with rfl | hx'
        · simp [hpx] at hp
        · exact ⟨x, hx', hpx⟩
      have := ih hrest0 hm' (fun x hx => hs x (by simp [hx]))
      simp [List.countP_cons, hqs, this]

theorem updateFirst_map_pres {β : Type} (p : SnapshotDoc → Bool)
    (f : SnapshotDoc → SnapshotDoc) (g : SnapshotDoc → β)
    (l : List SnapshotDoc) (h : ∀ x ∈ l, p x = true → g (f x) = g x) :
    ((updateFirst p f l).1).map g = l.map g := by
  induction l with
  | nil => rfl
  | cons s rest ih =>
    unfold updateFirst
    split
    · rename_i hp
      simp [h s (by simp) hp]
    · simp only [List.map_cons]
      rw [ih (fun x hx => h x (by simp [hx]))]

theorem updateFirst_snd_one (p : SnapshotDoc → Bool)
    (f : SnapshotDoc → SnapshotDoc) (l : List SnapshotDoc)
    (hm : ∃ x ∈ l, p x = true) : (updateFirst p f l).2 = 1 := by
  induction l with
  | nil => simp at hm
  | cons s rest ih =>
    unfold updateFirst
    split
    · rfl
    · rename_i hp
      have hm' : ∃ x ∈ rest, p x = true := by
        rcases hm with ⟨x, hx, hpx⟩
        rcases List.mem_cons.mp hx with rfl | hx'
        · simp [hpx] at hp
        · exact ⟨x, hx', hpx⟩
      simpa using ih hm'

theorem updateFirst_find?_map {β : Type} (p q : SnapshotDoc → Bool)
    (f : SnapshotDoc → SnapshotDoc) (g : SnapshotDoc → β)
    (l : List SnapshotDoc) (hq : ∀ x, q (f x) = q x)
    (hg : ∀ x, g (f x) = g x) :
    (((updateFirst p f l).1).find? q).map g = (l.find? q).map g := by
  induction l with
  | nil => rfl
  | cons s rest ih =>
    unfold updateFirst
    split
    · simp only [List.find?_cons, hq s]
      rcases Bool.eq_false_or_eq_true (q s) with h | h <;> simp [h, hg s]
    · simp only [List.find?_cons]
      rcases Bool.eq_false_or_eq_true (q s) with h | h <;> simp [h, ih]

theorem removeFirst_sublist (p : SnapshotDoc → Bool) (l : List SnapshotDoc) :
    List.Sublist ((removeFirst p l).1) l := by
  induction l with
  | nil => simp [removeFirst]
  | cons s rest ih =>
    unfold removeFirst
    split
    · exact List.sublist_cons_self s rest
    · exact List.Sublist.cons₂ s ih

theorem removeFirst_countP_pres (p q : SnapshotDoc → Bool)
    (l : List SnapshotDoc) (h : ∀ x ∈ l, p x = true → q x = false) :
    ((removeFirst p l).1).countP q = l.countP q := by
  induction l with
  | nil => rfl
  | cons s rest ih =>
    unfold removeFirst
    split
    · rename_i hp
      simp [List.countP_cons, h s (by simp) hp]
    · simp only [List.countP_cons]
      rw [ih (fun x hx => h x (by simp [hx]))]

theorem unsetCurrent_countP_self (pid : String) (l : List SnapshotDoc) :
    (unsetCurrent pid l).countP (isCur pid) = 0 := by
  rw [unsetCurrent, List.countP_map]
  exact List.countP_eq_zero.mpr fun s _ => by
    simp [Function.comp, isCur_unsetCur_self]

theorem unsetCurrent_countP_ne (pid qid : String) (h : qid ≠ pid)
    (l : List SnapshotDoc) :
    (unsetCurrent pid l).countP (isCur qid) = l.countP (isCur qid) := by
  rw [unsetCurrent, List.countP_map]
  exact List.countP_congr fun s _ => by
    simp [Function.comp, isCur_unsetCur_ne pid qid h]

theorem unsetCurrent_countP_proj (pid qid : String) (l : List SnapshotDoc) :
    (unsetCurrent pid l).countP (isProj qid) = l.countP (isProj qid) := by
  rw [unsetCurrent, List.countP_map]
  exact List.countP_congr fun s _ => by
    simp [Function.comp, isProj_unsetCur]

theorem unsetCurrent_map_sid (pid : String) (l : List SnapshotDoc) :
    (unsetCurrent pid l).map SnapshotDoc.sid = l.map SnapshotDoc.sid := by
  rw [unsetCurrent, List.map_map]
  exact List.map_congr_left fun s _ => unsetCur_sid pid s

theorem unsetCurrent_map_version (pid : String) (l : List SnapshotDoc) :
    (unsetCurrent pid l).map SnapshotDoc.version = l.map SnapshotDoc.version := by
  rw [unsetCurrent, List.map_map]
  exact List.map_congr_left fun s _ => unsetCur_version pid s

theorem unsetCurrent_idem (pid : String) (l : List SnapshotDoc) :
    unsetCurrent pid (unsetCurrent pid l) = unsetCurrent pid l := by
  rw [unsetCurrent, unsetCurrent, List.map_map]
  exact List.map_congr_left fun s _ => unsetCur_idem pid s

/-- Distinct `_id`s: any two stored documents with the same `sid` are the
same document. -/
theorem sid_unique {l : List SnapshotDoc}
    (hnd : (l.map SnapshotDoc.sid).Nodup) {x y : SnapshotDoc}
    (hx : x ∈ l) (hy : y ∈ l) (h : x.sid = y.sid) : x = y :=
  List.inj_on_of_nodup_map hnd hx hy h

/-! ## Lemmas about `latestVersion` -/

theorem foldl_max_init_le (l : List Nat) (a : Nat) : a ≤ l.foldl max a := by
  induction l generalizing a with
  | nil => simp
  | cons x xs ih => exact le_trans (le_max_left a x) (ih (max a x))

theorem mem_le_foldl_max (l : List Nat) (a x : Nat) (h : x ∈ l) :
    x ≤ l.foldl max a := by
  induction l generalizing a with
  | nil => simp at h
  | cons y ys ih =>
    rcases List.mem_cons.mp h with rfl | hm
    · exact le_trans (le_max_right a x) (foldl_max_init_le ys (max a x))
    · exact ih (max a y) hm

theorem version_le_latestVersion (pid : String) (l : List SnapshotDoc)
    (s : SnapshotDoc) (hs : s ∈ l) (hp : isProj pid s = true) :
    s.version ≤ latestVersion pid l := by
  unfold latestVersion
  exact mem_le_foldl_max _ 0 s.version
    (List.mem_map_of_mem _ (List.mem_filter.mpr ⟨hs, hp⟩))

theorem latestVersion_unsetCurrent (pid qid : String) (l : List SnapshotDoc) :
    latestVersion qid (unsetCurrent pid l) = latestVersion qid l := by
  unfold latestVersion unsetCurrent
  rw [List.filter_map, List.map_map]
  congr 1
  · rw [show (isProj qid ∘ unsetCur pid) = isProj qid from
      funext fun s => isProj_unsetCur pid qid s]
    exact List.map_congr_left fun s _ => unsetCur_version pid s

/-! ## Invariant preservation -/

theorem hasProj_iff_countP (qid : String) (l : List SnapshotDoc) :
    hasProj qid l = true ↔ 0 < l.countP (isProj qid) := by
  unfold hasProj
  rw [List.any_eq_true, List.countP_pos]

theorem Inv_save (d : TimelineStateCreate) (u : String) (env : Env)
    (h : Inv env.db) : Inv ((save_timeline_state d u env).2).db := by
  unfold save_timeline_state
  cases hv : validateProjectAccess env.projects d.project_id u with
  | none => simpa using h
  | some pr =>
    simp only [createAuditLog]
    refine ⟨?_, ?_, ?_⟩
    · intro s hs
      rcases List.mem_append.mp hs with hs1 | hs2
      · rcases List.mem_map.mp hs1 with ⟨y, hy, rfl⟩
        rw [unsetCur_sid]
        exact Nat.lt_succ_of_lt (h.1 y hy)
      · simp only [List.mem_singleton] at hs2
        subst hs2
        exact Nat.lt_succ_self _
    · rw [List.map_append, unsetCurrent_map_sid]
      refine List.nodup_append.mpr ⟨h.2.1, List.nodup_singleton _, ?_⟩
      intro a ha hmem
      simp only [List.map_cons, List.map_nil, List.mem_singleton] at hmem
      subst hmem
      rcases List.mem_map.mp ha with ⟨y, hy, hya⟩
      exact absurd hya (Nat.ne_of_lt (h.1 y hy))
    · intro qid hq
      by_cases hpid : qid = d.project_id
      · subst hpid
        simp [curCount, List.countP_append, unsetCurrent_countP_self,
          List.countP_cons, isCur]
      · unfold curCount at *
        rw [List.countP_append, unsetCurrent_countP_ne _ _ hpid]
        have h1 : List.countP (isCur qid)
            [(⟨env.db.nextId, d.project_id, d.timeline_state, true,
              latestVersion d.project_id (unsetCurrent d.project_id env.db.snaps) + 1,
              d.description, u, d.change_summary⟩ : SnapshotDoc)] = 0 := by
          simp [List.countP_cons, isCur, Ne.symm hpid]
        rw [h1, Nat.add_zero]
        apply h.2.2
        rw [hasProj_iff_countP] at hq ⊢
        rw [List.countP_append, unsetCurrent_countP_proj] at hq
        have h2 : List.countP (isProj qid)
            [(⟨env.db.nextId, d.project_id, d.timeline_state, true,
              latestVersion d.project_id (unsetCurrent d.project_id env.db.snaps) + 1,
              d.description, u, d.change_summary⟩ : SnapshotDoc)] = 0 := by
          simp [List.countP_cons, isProj, Ne.symm hpid]
        omega

theorem Inv_restore (p : String) (v : Nat) (u : String) (env : Env)
    (h : Inv env.db) : Inv ((restore_timeline_state p v u env).2).db := by
  unfold restore_timeline_state get_timeline_state_by_version
  cases hv : validateProjectAccess env.projects p u with
  | none => simpa using h
  | some pr =>
    cases hf : env.db.snaps.find?
        (fun s => s.project_id == p && s.version == v) with
    | none => simpa using h
    | some target =>
      have htm : target ∈ env.db.snaps := List.mem_of_find?_eq_some hf
      have htq := List.find?_some hf
      simp only [Bool.and_eq_true, beq_iff_eq] at htq
      have htp : target.project_id = p := htq.1
      have huniq : ∀ x ∈ unsetCurrent p env.db.snaps,
          sidIs target.sid x = true → x = unsetCur p target := by
        intro x hx hs
        rcases List.mem_map.mp hx with ⟨y, hy, rfl⟩
        unfold sidIs at hs
        rw [unsetCur_sid, beq_iff_eq] at hs
        rw [sid_unique h.2.1 hy htm hs]
      have hmatch : ∃ x ∈ unsetCurrent p env.db.snaps,
          sidIs target.sid x = true :=
        ⟨unsetCur p target, List.mem_map_of_mem _ htm, by
          simp [sidIs, unsetCur_sid]⟩
      have hmap : ((updateFirst (sidIs target.sid) setCur
          (unsetCurrent p env.db.snaps)).1).map SnapshotDoc.sid =
          env.db.snaps.map SnapshotDoc.sid := by
        rw [updateFirst_map_pres _ _ _ _ (fun x _ _ => setCur_sid x),
          unsetCurrent_map_sid]
      have hinv : Inv { snaps := (updateFirst (sidIs target.sid) setCur
          (unsetCurrent p env.db.snaps)).1, nextId := env.db.nextId } := by
        refine ⟨?_, ?_, ?_⟩
        · intro s hs
          have : s.sid ∈ env.db.snaps.map SnapshotDoc.sid := by
            rw [← hmap]
            exact List.mem_map_of_mem _ hs
          rcases List.mem_map.mp this with ⟨y, hy, hsy⟩
          rw [← hsy]
          exact h.1 y hy
        · rw [hmap]
          exact h.2.1
        · intro qid hq
          by_cases hpid : qid = p
          · subst hpid
            unfold curCount
            apply updateFirst_countP_one
            · exact unsetCurrent_countP_self qid env.db.snaps
            · exact hmatch
            · intro x hx hs
              rw [huniq x hx hs]
              apply isCur_setCur_of_proj
              rw [isProj_unsetCur, isProj, htp]
              exact beq_self_eq_true qid
          · have hpres : ∀ x ∈ unsetCurrent p env.db.snaps,
                sidIs target.sid x = true →
                isCur qid (setCur x) = isCur qid x := by
              intro x hx hs
              rw [huniq x hx hs]
              have hnp : isProj qid (unsetCur p target) = false := by
                rw [isProj_unsetCur, isProj, htp]
                simp [Ne.symm hpid]
              rw [isCur_setCur_of_not_proj _ _ hnp]
              cases hc : isCur qid (unsetCur p target)
              · rfl
              · exact absurd (isCur_isProj _ _ hc) (by simp [hnp])
            unfold curCount
            rw [updateFirst_countP_pres _ _ _ _ hpres,
              unsetCurrent_countP_ne _ _ hpid]
            apply h.2.2
            rw [hasProj_iff_countP] at hq ⊢
            rwa [updateFirst_countP_pres _ _ _ _
                (fun x _ _ => isProj_setCur qid x),
              unsetCurrent_countP_proj] at hq
      simp only [createAuditLog]
      split
      · exact hinv
      · exact hinv

theorem Inv_delete (t : Nat) (u : String) (env : Env)
    (h : Inv env.db) : Inv ((delete_timeline_state t u env).2).db := by
  unfold delete_timeline_state
  cases hf : env.db.snaps.find? (sidIs t) with
  | none => simpa using h
  | some ex =>
    have htm : ex ∈ env.db.snaps := List.mem_of_find?_eq_some hf
    have hsid : ex.sid = t := by
      have := List.find?_some hf
      unfold sidIs at this
      exact beq_iff_eq.mp this
    cases hv : validateProjectAccess env.projects ex.project_id u with
    | none =>
      simp only [hv]
      simpa using h
    | some pr =>
      simp only [hv]
      cases hcur : ex.is_current with
      | true =>
        simp only [hcur]
        simpa using h
      | false =>
        have huniq : ∀ x ∈ env.db.snaps, sidIs t x = true → x = ex := by
          intro x hx hs
          unfold sidIs at hs
          rw [beq_iff_eq] at hs
          exact sid_unique h.2.1 hx htm (hs.trans hsid.symm)
        have hinv : Inv { snaps := (removeFirst (sidIs t) env.db.snaps).1,
                          nextId := env.db.nextId } := by
          refine ⟨?_, ?_, ?_⟩
          · intro s hs
            exact h.1 s ((removeFirst_sublist (sidIs t) env.db.snaps).subset hs)
          · exact h.2.1.sublist
              ((removeFirst_sublist (sidIs t) env.db.snaps).map SnapshotDoc.sid)
          · intro qid hq
            have hpres : ∀ x ∈ env.db.snaps, sidIs t x = true →
                isCur qid x = false := by
              intro x hx hs
              rw [huniq x hx hs]
              simp [isCur, hcur]
            unfold curCount
            rw [removeFirst_countP_pres _ _ _ hpres]
            apply h.2.2
            rw [hasProj_iff_countP, List.countP_pos] at hq
            rcases hq with ⟨x, hx, hpx⟩
            rw [hasProj_iff_countP, List.countP_pos]
            exact ⟨x, (removeFirst_sublist (sidIs t) env.db.snaps).subset hx, hpx⟩
        simp [hcur, createAuditLog]
        split
        · exact hinv
        · exact hinv

theorem Inv_applyOp (env : Env) (op : Op) (h : Inv env.db) :
    Inv (applyOp env op).db := by
  cases op with
  | save d u => exact Inv_save d u env h
  | restore p v u => exact Inv_restore p v u env h
  | delete t u => exact Inv_delete t u env h

theorem Inv_runOps (env : Env) (ops : List Op) (h : Inv env.db) :
    Inv (runOps env ops).db := by
  induction ops generalizing env with
  | nil => exact h
  | cons op rest ih => exact ih (applyOp env op) (Inv_applyOp env op h)

theorem Inv_initEnv (projects : List ProjectDoc) : Inv (initEnv projects).db := by
  refine ⟨?_, ?_, ?_⟩ <;> simp [initEnv, hasProj]

theorem latestVersion_of_no_proj (pid : String) (l : List SnapshotDoc)
    (h : hasProj pid l = false) : latestVersion pid l = 0 := by
  unfold latestVersion
  have hnil : l.filter (isProj pid) = [] := by
    rw [List.filter_eq_nil_iff]
    intro x hx
    unfold hasProj at h
    rw [List.any_eq_false] at h
    exact h x hx
  simp [hnil]

theorem unsetCur_id_of_not_current (pid : String) (s : SnapshotDoc)
    (h : s.is_current = false) : unsetCur pid s = s := by
  unfold unsetCur isCur
  simp [h]

theorem updateFirst_find?_self (p : SnapshotDoc → Bool)
    (f : SnapshotDoc → SnapshotDoc) (l : List SnapshotDoc)
    (hpf : ∀ x, p (f x) = p x) :
    ((updateFirst p f l).1).find? p = (l.find? p).map f := by
  induction l with
  | nil => rfl
  | cons s rest ih =>
    unfold updateFirst
    split
    · rename_i hp
      simp [List.find?_cons, hpf s, hp]
    · rename_i hp
      rw [Bool.not_eq_true] at hp
      simp [List.find?_cons, hp, ih]

theorem createAuditLog_db (u : String) (a : AuditAction) (rt : String)
    (ri : Option String) (dt : List (String × PyValue)) (env : Env) :
    (createAuditLog u a rt ri dt env).db = env.db := rfl

theorem createAuditLog_projects (u : String) (a : AuditAction) (rt : String)
    (ri : Option String) (dt : List (String × PyValue)) (env : Env) :
    (createAuditLog u a rt ri dt env).projects = env.projects := rfl

/-- The by-version filter is invariant under the flag rewrites. -/
theorem byVersion_unsetCur (p : String) (v : Nat) (pid : String)
    (s : SnapshotDoc) :
    ((unsetCur pid s).project_id == p && (unsetCur pid s).version == v) =
      (s.project_id == p && s.version == v) := by
  rw [unsetCur_project_id, unsetCur_version]

theorem byVersion_setCur (p : String) (v : Nat) (s : SnapshotDoc) :
    ((setCur s).project_id == p && (setCur s).version == v) =
      (s.project_id == p && s.version == v) := rfl

theorem unsetCurrent_find?_byVersion (pid p : String) (v : Nat)
    (l : List SnapshotDoc) :
    (unsetCurrent pid l).find? (fun s => s.project_id == p && s.version == v) =
      (l.find? (fun s => s.project_id == p && s.version == v)).map
        (unsetCur pid) := by
  unfold unsetCurrent
  rw [List.find?_map]
  congr 1
  rw [show ((fun s => s.project_id == p && s.version == v) ∘ unsetCur pid) =
    (fun s : SnapshotDoc => s.project_id == p && s.version == v) from
    funext fun s => byVersion_unsetCur p v pid s]

/-- One unset-then-set-current round applied twice gives the same list as
applied once. -/
theorem restore_step_idem (pid : String) (t : Nat) (l : List SnapshotDoc) :
    (updateFirst (sidIs t) setCur (unsetCurrent pid
      (updateFirst (sidIs t) setCur (unsetCurrent pid l)).1)).1 =
    (updateFirst (sidIs t) setCur (unsetCurrent pid l)).1 := by
  induction l with
  | nil => rfl
  | cons x xs ih =>
    show (updateFirst (sidIs t) setCur (unsetCurrent pid
      (updateFirst (sidIs t) setCur
        (unsetCur pid x :: unsetCurrent pid xs)).1)).1 = _
    by_cases hp : sidIs t (unsetCur pid x) = true
    · simp only [updateFirst, hp, if_true]
      show (updateFirst (sidIs t) setCur
        (unsetCur pid (setCur (unsetCur pid x)) ::
          unsetCurrent pid (unsetCurrent pid xs))).1 = _
      have hp2 : sidIs t (unsetCur pid (setCur (unsetCur pid x))) = true := by
        rw [sidIs_unsetCur, sidIs_setCur]
        exact hp
      simp [updateFirst, hp2, unsetCurrent_idem, setCur_unsetCur_setCur,
        unsetCurrent]
      exact fun a _ => unsetCur_idem pid a
    · rw [Bool.not_eq_true] at hp
      simp only [updateFirst, hp, Bool.false_eq_true, if_false]
      show (updateFirst (sidIs t) setCur
        (unsetCur pid (unsetCur pid x) ::
          unsetCurrent pid (updateFirst (sidIs t) setCur
            (unsetCurrent pid xs)).1)).1 = _
      have hp2 : sidIs t (unsetCur pid (unsetCur pid x)) = false := by
        rw [unsetCur_idem]
        exact hp
      simp [updateFirst, hp2, hp, unsetCur_idem, ih]
      rfl

/-- Decomposition of a successful Restore: the access check passed, the
target was found by `(project_id, version)` before any flag was touched,
and the final state is the audited flag-rewrite of the initial one. -/
theorem restore_success_parts (pid : String) (v : Nat) (uid : String)
    (env : Env) (target : SnapshotDoc)
    (hres : (restore_timeline_state pid v uid env).1 = .ok (some target)) :
    (∃ pr, validateProjectAccess env.projects pid uid = some pr) ∧
    env.db.snaps.find?
      (fun s => s.project_id == pid && s.version == v) = some target ∧
    ((restore_timeline_state pid v uid env).2).projects = env.projects ∧
    ((restore_timeline_state pid v uid env).2).db.nextId = env.db.nextId ∧
    ((restore_timeline_state pid v uid env).2).db.snaps =
      (updateFirst (sidIs target.sid) setCur
        (unsetCurrent pid env.db.snaps)).1 := by
  unfold restore_timeline_state get_timeline_state_by_version at hres ⊢
  cases hv : validateProjectAccess env.projects pid uid with
  | none =>
    simp only [hv] at hres
    exact absurd hres (by simp)
  | some pr =>
    simp only [hv] at hres ⊢
    cases hf : env.db.snaps.find?
        (fun s => s.project_id == pid && s.version == v) with
    | none =>
      simp only [hf] at hres
      exact absurd hres (by simp)
    | some t0 =>
      simp only [hf] at hres ⊢
      have ht0 : t0 ∈ env.db.snaps := List.mem_of_find?_eq_some hf
      have hone : (updateFirst (sidIs t0.sid) setCur
          (unsetCurrent pid env.db.snaps)).2 = 1 :=
        updateFirst_snd_one _ _ _
          ⟨unsetCur pid t0, List.mem_map_of_mem _ ht0, by
            simp [sidIs, unsetCur_sid]⟩
      simp [hone, createAuditLog_db, createAuditLog_projects] at hres ⊢
      subst hres
      exact ⟨rfl, rfl⟩

/-! ## Claim theorems -/

/-- C1: for every project with at least one saved snapshot, after any
sequence of Save, Restore and Delete operations run against a fresh store,
exactly one snapshot of that project has `is_current = true`: Save unsets
the flag on all previous current snapshots before inserting the new current
one, Restore unsets all current flags before setting the target's, and
Delete refuses to remove the current snapshot. -/
theorem exactly_one_current_invariant (projects : List ProjectDoc)
    (ops : List Op) (pid : String)
    (h : hasProj pid (runOps (initEnv projects) ops).db.snaps = true) :
    curCount pid (runOps (initEnv projects) ops).db.snaps = 1 :=
  (Inv_runOps (initEnv projects) ops (Inv_initEnv projects)).2.2 pid h

theorem exactly_one_current_invariant_witness :
    hasProj "p1" (runOps (initEnv [{ id := "p1", user_id := "alice" }])
      [Op.save { project_id := "p1", timeline_state := {} } "alice",
       Op.save { project_id := "p1", timeline_state := {} } "alice"]).db.snaps
      = true ∧
    curCount "p1" (runOps (initEnv [{ id := "p1", user_id := "alice" }])
      [Op.save { project_id := "p1", timeline_state := {} } "alice",
       Op.save { project_id := "p1", timeline_state := {} } "alice"]).db.snaps
      = 1 :=
  ⟨by decide, exactly_one_current_invariant _ _ _ (by decide)⟩

/-- C2 (amended): Save assigns the new snapshot
`version = (highest version currently stored for the project) + 1`, and
`version = 1` when the project has no stored snapshot; the sids and
versions of all stored snapshots are unchanged, and the new version is
strictly greater than the version of every snapshot stored at the time of
the call.  Versions of *stored* snapshots are thus never renumbered —
but a deleted snapshot's version can be reassigned when the deleted
snapshot held the project's highest version (see the counterexample). -/
theorem save_assigns_max_plus_one (d : TimelineStateCreate) (u : String)
    (env : Env) (pr : ProjectDoc)
    (hv : validateProjectAccess env.projects d.project_id u = some pr) :
    ∃ doc, (save_timeline_state d u env).1 = .ok doc ∧
      doc.version = latestVersion d.project_id env.db.snaps + 1 ∧
      (hasProj d.project_id env.db.snaps = false → doc.version = 1) ∧
      (∀ s ∈ env.db.snaps, isProj d.project_id s = true →
        s.version < doc.version) ∧
      ((save_timeline_state d u env).2).db.snaps.map
          (fun s => (s.sid, s.version)) =
        env.db.snaps.map (fun s => (s.sid, s.version)) ++
          [(env.db.nextId, doc.version)] := by
  unfold save_timeline_state
  rw [hv]
  refine ⟨_, rfl, ?_, ?_, ?_, ?_⟩
  · simp [latestVersion_unsetCurrent]
  · intro hnone
    simp [latestVersion_unsetCurrent, latestVersion_of_no_proj _ _ hnone]
  · intro s hs hp
    simp only [latestVersion_unsetCurrent]
    exact Nat.lt_succ_of_le (version_le_latestVersion d.project_id env.db.snaps s hs hp)
  · simp only [createAuditLog, List.map_append, unsetCurrent, List.map_map]
    rw [List.map_congr_left
      (fun s _ => by simp [unsetCur_sid, unsetCur_version] : ∀ s ∈ env.db.snaps,
        ((fun x => (x.sid, x.version)) ∘ unsetCur d.project_id) s =
          (fun x => (x.sid, x.version)) s)]
    simp [latestVersion_unsetCurrent]

theorem save_assigns_max_plus_one_witness :
    validateProjectAccess [{ id := "p1", user_id := "alice" }] "p1" "alice" =
      some { id := "p1", user_id := "alice" } ∧
    ∃ doc, (save_timeline_state { project_id := "p1", timeline_state := {} }
        "alice" (initEnv [{ id := "p1", user_id := "alice" }])).1 = .ok doc ∧
      doc.version = latestVersion "p1"
        (initEnv [{ id := "p1", user_id := "alice" }]).db.snaps + 1 ∧
      (hasProj "p1" (initEnv [{ id := "p1", user_id := "alice" }]).db.snaps
        = false → doc.version = 1) ∧
      (∀ s ∈ (initEnv [{ id := "p1", user_id := "alice" }]).db.snaps,
        isProj "p1" s = true → s.version < doc.version) ∧
      ((save_timeline_state { project_id := "p1", timeline_state := {} }
          "alice" (initEnv [{ id := "p1", user_id := "alice" }])).2).db.snaps.map
          (fun s => (s.sid, s.version)) =
        (initEnv [{ id := "p1", user_id := "alice" }]).db.snaps.map
          (fun s => (s.sid, s.version)) ++
          [((initEnv [{ id := "p1", user_id := "alice" }]).db.nextId,
            doc.version)] :=
  ⟨by decide, save_assigns_max_plus_one _ _ _
    { id := "p1", user_id := "alice" } (by decide)⟩

/-- C2 counterexample: from a fresh store, Save, Save (version 2), Restore
version 1, then Delete of the version-2 snapshot (legal: it is no longer
current) leaves max stored version 1, so the next Save assigns version 2
again — the version of a deleted non-current snapshot is reused, contrary
to the claim. -/
theorem version_reuse_after_delete_counterexample :
    (Option.map (fun s => (s.version, s.is_current))
      ((runOps (initEnv [{ id := "p1", user_id := "alice" }])
          [Op.save { project_id := "p1", timeline_state := {} } "alice",
           Op.save { project_id := "p1", timeline_state := {} } "alice",
           Op.restore "p1" 1 "alice"]).db.snaps.find? (sidIs 1)) =
        some ((2 : Nat), false)) ∧
    ((delete_timeline_state 1 "alice"
        (runOps (initEnv [{ id := "p1", user_id := "alice" }])
          [Op.save { project_id := "p1", timeline_state := {} } "alice",
           Op.save { project_id := "p1", timeline_state := {} } "alice",
           Op.restore "p1" 1 "alice"])).1 = .ok true) ∧
    (Except.map SnapshotDoc.version
      (save_timeline_state { project_id := "p1", timeline_state := {} }
        "alice" (runOps (initEnv [{ id := "p1", user_id := "alice" }])
          [Op.save { project_id := "p1", timeline_state := {} } "alice",
           Op.save { project_id := "p1", timeline_state := {} } "alice",
           Op.restore "p1" 1 "alice",
           Op.delete 1 "alice"])).1 = .ok 2) := by
  decide

theorem unsetCurrent_find?_sidIs (pid : String) (t : Nat)
    (l : List SnapshotDoc) :
    (unsetCurrent pid l).find? (sidIs t) =
      (l.find? (sidIs t)).map (unsetCur pid) := by
  unfold unsetCurrent
  rw [List.find?_map]
  congr 1
  rw [show (sidIs t ∘ unsetCur pid) = sidIs t from
    funext fun s => sidIs_unsetCur t pid s]

/-- C8: Restore is idempotent on the snapshot store: if `Restore(P, v)`
succeeds, an immediately following `Restore(P, v)` also succeeds and leaves
the snapshot collection exactly as the first call left it — the same
snapshot stays current and no document changes (wall-clock `updated_at`
stamps are outside the model; the duplicate audit entries the claim allows
are appended). -/
theorem restore_idempotent (pid : String) (v : Nat) (uid : String)
    (env : Env) (target : SnapshotDoc)
    (hres : (restore_timeline_state pid v uid env).1 = .ok (some target)) :
    ((restore_timeline_state pid v uid
        ((restore_timeline_state pid v uid env).2)).2).db =
      ((restore_timeline_state pid v uid env).2).db ∧
    ∃ d2, (restore_timeline_state pid v uid
        ((restore_timeline_state pid v uid env).2)).1 = .ok (some d2) := by
  obtain ⟨⟨pr, hv⟩, hf, hproj, hnext, hsnaps⟩ :=
    restore_success_parts pid v uid env target hres
  set env1 := (restore_timeline_state pid v uid env).2 with henv1
  have hfind1 : (env1.db.snaps.find?
      (fun s => s.project_id == pid && s.version == v)).map SnapshotDoc.sid =
      some target.sid := by
    rw [hsnaps]
    rw [updateFirst_find?_map (sidIs target.sid)
      (fun s => s.project_id == pid && s.version == v) setCur
      SnapshotDoc.sid (unsetCurrent pid env.db.snaps)
      (fun x => rfl) (fun x => rfl)]
    rw [unsetCurrent_find?_byVersion, hf]
    simp [unsetCur_sid]
  obtain ⟨t2, hf2, hsid2⟩ : ∃ t2, env1.db.snaps.find?
      (fun s => s.project_id == pid && s.version == v) = some t2 ∧
      t2.sid = target.sid := by
    cases hx : env1.db.snaps.find?
        (fun s => s.project_id == pid && s.version == v) with
    | none => rw [hx] at hfind1; exact absurd hfind1 (by simp)
    | some a =>
      rw [hx] at hfind1
      simp at hfind1
      exact ⟨a, rfl, hfind1⟩
  have ht2 : t2 ∈ env1.db.snaps := List.mem_of_find?_eq_some hf2
  have hone2 : (updateFirst (sidIs t2.sid) setCur
      (unsetCurrent pid env1.db.snaps)).2 = 1 :=
    updateFirst_snd_one _ _ _
      ⟨unsetCur pid t2, List.mem_map_of_mem _ ht2, by
        simp [sidIs, unsetCur_sid]⟩
  have hdb : (updateFirst (sidIs t2.sid) setCur
      (unsetCurrent pid env1.db.snaps)).1 = env1.db.snaps := by
    rw [hsid2, hsnaps]
    exact restore_step_idem pid target.sid env.db.snaps
  unfold restore_timeline_state get_timeline_state_by_version
  rw [hproj]
  simp [hv, hf2, hone2, createAuditLog_db]
  rw [hdb]

theorem restore_idempotent_witness :
    ((restore_timeline_state "p1" 1 "alice"
        (runOps (initEnv [{ id := "p1", user_id := "alice" }])
          [Op.save { project_id := "p1", timeline_state := {} } "alice"])).1 =
      .ok (some { sid := 0, project_id := "p1", timeline_state := {},
                  is_current := true, version := 1, description := none,
                  created_by := "alice", change_summary := none })) ∧
    (((restore_timeline_state "p1" 1 "alice"
        ((restore_timeline_state "p1" 1 "alice"
          (runOps (initEnv [{ id := "p1", user_id := "alice" }])
            [Op.save { project_id := "p1", timeline_state := {} } "alice"])).2)).2).db =
      ((restore_timeline_state "p1" 1 "alice"
        (runOps (initEnv [{ id := "p1", user_id := "alice" }])
          [Op.save { project_id := "p1", timeline_state := {} } "alice"])).2).db ∧
    ∃ d2, (restore_timeline_state "p1" 1 "alice"
        ((restore_timeline_state "p1" 1 "alice"
          (runOps (initEnv [{ id := "p1", user_id := "alice" }])
            [Op.save { project_id := "p1", timeline_state := {} } "alice"])).2)).1 =
      .ok (some d2)) :=
  ⟨by decide,
    restore_idempotent "p1" 1 "alice"
      (runOps (initEnv [{ id := "p1", user_id := "alice" }])
        [Op.save { project_id := "p1", timeline_state := {} } "alice"])
      { sid := 0, project_id := "p1", timeline_state := {},
        is_current := true, version := 1, description := none,
        created_by := "alice", change_summary := none }
      (by decide)⟩

/-- C9: round-trip — for an authorized caller, Save returning a snapshot
with version N followed by GetByVersion(N) on the resulting state returns
that same snapshot, whose `timeline_state` is (deep-)equal to the value
that was saved. -/
theorem save_get_roundtrip (d : TimelineStateCreate) (uid : String)
    (env : Env) (pr : ProjectDoc)
    (hv : validateProjectAccess env.projects d.project_id uid = some pr) :
    ∃ doc, (save_timeline_state d uid env).1 = .ok doc ∧
      doc.timeline_state = d.timeline_state ∧
      (get_timeline_state_by_version d.project_id doc.version uid
        ((save_timeline_state d uid env).2)).1 = .ok (some doc) := by
  unfold save_timeline_state
  rw [hv]
  refine ⟨_, rfl, rfl, ?_⟩
  unfold get_timeline_state_by_version
  simp only [createAuditLog]
  rw [hv]
  rw [List.find?_append]
  have hnone : (unsetCurrent d.project_id env.db.snaps).find?
      (fun s => s.project_id == d.project_id && s.version ==
        (latestVersion d.project_id
          (unsetCurrent d.project_id env.db.snaps) + 1)) = none := by
    rw [List.find?_eq_none]
    intro x hx hqx
    rcases List.mem_map.mp hx with ⟨y, hy, rfl⟩
    simp only [Bool.and_eq_true, beq_iff_eq] at hqx
    rw [unsetCur_project_id] at hqx
    rw [unsetCur_version] at hqx
    have h2 : isProj d.project_id y = true := by
      unfold isProj
      rw [hqx.1]
      exact beq_self_eq_true _
    have h3 := version_le_latestVersion d.project_id env.db.snaps y hy h2
    rw [← latestVersion_unsetCurrent d.project_id d.project_id
      env.db.snaps] at h3
    omega
  rw [hnone]
  simp

theorem save_get_roundtrip_witness :
    validateProjectAccess [{ id := "p1", user_id := "alice" }] "p1" "alice" =
      some { id := "p1", user_id := "alice" } ∧
    ∃ doc, (save_timeline_state
        { project_id := "p1", timeline_state := { playhead_time := 5 } }
        "alice" (initEnv [{ id := "p1", user_id := "alice" }])).1 = .ok doc ∧
      doc.timeline_state = ({ playhead_time := 5 } : TimelineState) ∧
      (get_timeline_state_by_version "p1" doc.version "alice"
        ((save_timeline_state
          { project_id := "p1", timeline_state := { playhead_time := 5 } }
          "alice" (initEnv [{ id := "p1", user_id := "alice" }])).2)).1 =
        .ok (some doc) :=
  ⟨by decide,
    save_get_roundtrip
      { project_id := "p1", timeline_state := { playhead_time := 5 } }
      "alice" (initEnv [{ id := "p1", user_id := "alice" }])
      { id := "p1", user_id := "alice" } (by decide)⟩

/-- C10 (implicit): a successful Restore returns the snapshot as it was
read from the store before the `is_current` flags were flipped, so when
the restored version was not already current, the returned value has
`is_current = false` even though the stored document for that version now
has `is_current = true`. -/
theorem restore_returns_preflip_snapshot (env : Env) (pid : String)
    (v : Nat) (uid : String) (target : SnapshotDoc) (pr : ProjectDoc)
    (hnd : (env.db.snaps.map SnapshotDoc.sid).Nodup)
    (hv : validateProjectAccess env.projects pid uid = some pr)
    (hf : env.db.snaps.find?
      (fun s => s.project_id == pid && s.version == v) = some target)
    (hcur : target.is_current = false) :
    (restore_timeline_state pid v uid env).1 = .ok (some target) ∧
    ((restore_timeline_state pid v uid env).2).db.snaps.find?
      (sidIs target.sid) = some (setCur target) := by
  have ht : target ∈ env.db.snaps := List.mem_of_find?_eq_some hf
  have hone : (updateFirst (sidIs target.sid) setCur
      (unsetCurrent pid env.db.snaps)).2 = 1 :=
    updateFirst_snd_one _ _ _
      ⟨unsetCur pid target, List.mem_map_of_mem _ ht, by
        simp [sidIs, unsetCur_sid]⟩
  have hfl : env.db.snaps.find? (sidIs target.sid) = some target := by
    have hsome : (env.db.snaps.find? (sidIs target.sid)).isSome := by
      rw [List.find?_isSome]
      exact ⟨target, ht, by simp [sidIs]⟩
    obtain ⟨y, hy⟩ := Option.isSome_iff_exists.mp hsome
    have hym : y ∈ env.db.snaps := List.mem_of_find?_eq_some hy
    have hys : y.sid = target.sid := by
      have := List.find?_some hy
      unfold sidIs at this
      exact beq_iff_eq.mp this
    rw [hy, sid_unique hnd hym ht hys]
  unfold restore_timeline_state get_timeline_state_by_version
  simp only [hv, hf, hone, createAuditLog_db]
  refine ⟨by simp, ?_⟩
  show ((updateFirst (sidIs target.sid) setCur
      (unsetCurrent pid env.db.snaps)).1).find? (sidIs target.sid) =
    some (setCur target)
  rw [updateFirst_find?_self _ _ _ (fun x => sidIs_setCur target.sid x)]
  rw [unsetCurrent_find?_sidIs, hfl]
  simp [unsetCur_id_of_not_current pid target hcur]

theorem restore_returns_preflip_snapshot_witness :
    ((runOps (initEnv [{ id := "p1", user_id := "alice" }])
        [Op.save { project_id := "p1", timeline_state := {} } "alice",
         Op.save { project_id := "p1",
                   timeline_state := { playhead_time := 5 } } "alice"])
      : Env).db.snaps.find?
      (fun s => s.project_id == "p1" && s.version == 1) =
      some { sid := 0, project_id := "p1", timeline_state := {},
             is_current := false, version := 1, description := none,
             created_by := "alice", change_summary := none } ∧
    (restore_timeline_state "p1" 1 "alice"
        (runOps (initEnv [{ id := "p1", user_id := "alice" }])
          [Op.save { project_id := "p1", timeline_state := {} } "alice",
           Op.save { project_id := "p1",
                     timeline_state := { playhead_time := 5 } } "alice"])).1 =
      .ok (some { sid := 0, project_id := "p1", timeline_state := {},
                  is_current := false, version := 1, description := none,
                  created_by := "alice", change_summary := none }) ∧
    ((restore_timeline_state "p1" 1 "alice"
        (runOps (initEnv [{ id := "p1", user_id := "alice" }])
          [Op.save { project_id := "p1", timeline_state := {} } "alice",
           Op.save { project_id := "p1",
                     timeline_state := { playhead_time := 5 } } "alice"])).2).db.snaps.find?
      (sidIs 0) =
      some (setCur { sid := 0, project_id := "p1", timeline_state := {},
                     is_current := false, version := 1, description := none,
                     created_by := "alice", change_summary := none }) :=
  ⟨by decide,
    restore_returns_preflip_snapshot
      (runOps (initEnv [{ id := "p1", user_id := "alice" }])
        [Op.save { project_id := "p1", timeline_state := {} } "alice",
         Op.save { project_id := "p1",
                   timeline_state := { playhead_time := 5 } } "alice"])
      "p1" 1 "alice"
      { sid := 0, project_id := "p1", timeline_state := {},
        is_current := false, version := 1, description := none,
        created_by := "alice", change_summary := none }
      { id := "p1", user_id := "alice" }
      (by decide) (by decide) (by decide) rfl⟩

/-- C4 (amended): for a caller that is neither the project's owner nor a
collaborator — including when the project is missing or soft-deleted —
each of Save, GetCurrent, GetByVersion, GetHistory, Restore and Delete
(of an existing snapshot of that project) fails with `ValidationError`
carrying the message `"Project <id> not found or access denied"`, not the
spec's `AccessDenied` kind (which the code never produces), and leaves the
whole state unchanged. -/
theorem unauthorized_caller_validation_error (env : Env) (pid uid : String)
    (d : TimelineStateCreate) (ver lim skip tid : Nat) (ex : SnapshotDoc)
    (hv : validateProjectAccess env.projects pid uid = none)
    (hd : d.project_id = pid)
    (hfind : env.db.snaps.find? (sidIs tid) = some ex)
    (hex : ex.project_id = pid) :
    save_timeline_state d uid env =
      (.error (.validationError (accessDeniedMsg pid)), env) ∧
    get_current_timeline_state pid uid env =
      (.error (.validationError (accessDeniedMsg pid)), env) ∧
    get_timeline_state_by_version pid ver uid env =
      (.error (.validationError (accessDeniedMsg pid)), env) ∧
    get_timeline_history pid uid lim skip env =
      (.error (.validationError (accessDeniedMsg pid)), env) ∧
    restore_timeline_state pid ver uid env =
      (.error (.validationError (accessDeniedMsg pid)), env) ∧
    delete_timeline_state tid uid env =
      (.error (.validationError (accessDeniedMsg pid)), env) := by
  refine ⟨?_, ?_, ?_, ?_, ?_, ?_⟩
  · unfold save_timeline_state
    rw [hd, hv]
  · unfold get_current_timeline_state
    rw [hv]
  · unfold get_timeline_state_by_version
    rw [hv]
  · unfold get_timeline_history
    rw [hv]
  · unfold restore_timeline_state
    rw [hv]
  · unfold delete_timeline_state
    simp only [hfind]
    rw [hex, hv]

theorem unauthorized_caller_validation_error_witness :
    validateProjectAccess [{ id := "p1", user_id := "alice" }] "p1" "mallory"
      = none ∧
    save_timeline_state { project_id := "p1", timeline_state := {} } "mallory"
        { projects := [{ id := "p1", user_id := "alice" }],
          db := { snaps := [{ sid := 0, project_id := "p1",
                              timeline_state := {}, is_current := true,
                              version := 1, created_by := "alice" }],
                  nextId := 1 } } =
      (.error (.validationError (accessDeniedMsg "p1")),
        { projects := [{ id := "p1", user_id := "alice" }],
          db := { snaps := [{ sid := 0, project_id := "p1",
                              timeline_state := {}, is_current := true,
                              version := 1, created_by := "alice" }],
                  nextId := 1 } }) :=
  ⟨by decide,
    (unauthorized_caller_validation_error
      { projects := [{ id := "p1", user_id := "alice" }],
        db := { snaps := [{ sid := 0, project_id := "p1",
                            timeline_state := {}, is_current := true,
                            version := 1, created_by := "alice" }],
                nextId := 1 } }
      "p1" "mallory" { project_id := "p1", timeline_state := {} }
      1 20 0 0
      { sid := 0, project_id := "p1", timeline_state := {},
        is_current := true, version := 1, created_by := "alice" }
      (by decide) rfl (by decide) rfl).1⟩

/-- C4 counterexample: with project `p1` owned by `alice`, a Save by the
stranger `mallory` fails with `ValidationError` ("Project p1 not found or
access denied"), which is not the `AccessDenied` error kind the claim
requires. -/
theorem unauthorized_not_access_denied_counterexample :
    (resultError? (save_timeline_state
        { project_id := "p1", timeline_state := {} } "mallory"
        (initEnv [{ id := "p1", user_id := "alice" }])).1 =
      some (.validationError "Project p1 not found or access denied")) ∧
    (Option.map SvcError.isAccessDenied
      (resultError? (save_timeline_state
        { project_id := "p1", timeline_state := {} } "mallory"
        (initEnv [{ id := "p1", user_id := "alice" }])).1) = some false) := by
  decide

/-- C6 (amended): Delete of the snapshot that is currently flagged
`is_current`, by an authorized caller, fails with
`ValidationError "Cannot delete current timeline state"` — the code has no
`ConflictError` class — and the store is unchanged by the failed call. -/
theorem delete_current_validation_error (env : Env) (uid : String)
    (tid : Nat) (ex : SnapshotDoc) (pr : ProjectDoc)
    (hfind : env.db.snaps.find? (sidIs tid) = some ex)
    (hv : validateProjectAccess env.projects ex.project_id uid = some pr)
    (hcur : ex.is_current = true) :
    delete_timeline_state tid uid env =
      (.error (.validationError "Cannot delete current timeline state"),
        env) := by
  unfold delete_timeline_state
  simp only [hfind]
  rw [hv, hcur]
  simp

theorem delete_current_validation_error_witness :
    ({ projects := [{ id := "p1", user_id := "alice" }],
       db := { snaps := [{ sid := 0, project_id := "p1",
                           timeline_state := {}, is_current := true,
                           version := 1, created_by := "alice" }],
               nextId := 1 } } : Env).db.snaps.find? (sidIs 0) =
      some { sid := 0, project_id := "p1", timeline_state := {},
             is_current := true, version := 1, created_by := "alice" } ∧
    delete_timeline_state 0 "alice"
        { projects := [{ id := "p1", user_id := "alice" }],
          db := { snaps := [{ sid := 0, project_id := "p1",
                              timeline_state := {}, is_current := true,
                              version := 1, created_by := "alice" }],
                  nextId := 1 } } =
      (.error (.validationError "Cannot delete current timeline state"),
        { projects := [{ id := "p1", user_id := "alice" }],
          db := { snaps := [{ sid := 0, project_id := "p1",
                              timeline_state := {}, is_current := true,
                              version := 1, created_by := "alice" }],
                  nextId := 1 } }) :=
  ⟨by decide,
    delete_current_validation_error
      { projects := [{ id := "p1", user_id := "alice" }],
        db := { snaps := [{ sid := 0, project_id := "p1",
                            timeline_state := {}, is_current := true,
                            version := 1, created_by := "alice" }],
                nextId := 1 } }
      "alice" 0
      { sid := 0, project_id := "p1", timeline_state := {},
        is_current := true, version := 1, created_by := "alice" }
      { id := "p1", user_id := "alice" }
      (by decide) (by decide) rfl⟩

/-- C6 counterexample: the authorized owner deleting the current snapshot
receives `ValidationError`, not the `ConflictError` kind the claim
requires. -/
theorem delete_current_not_conflict_counterexample :
    (resultError? (delete_timeline_state 0 "alice"
        { projects := [{ id := "p1", user_id := "alice" }],
          db := { snaps := [{ sid := 0, project_id := "p1",
                              timeline_state := {}, is_current := true,
                              version := 1, created_by := "alice" }],
                  nextId := 1 } }).1 =
      some (.validationError "Cannot delete current timeline state")) ∧
    (Option.map SvcError.isConflictError
      (resultError? (delete_timeline_state 0 "alice"
        { projects := [{ id := "p1", user_id := "alice" }],
          db := { snaps := [{ sid := 0, project_id := "p1",
                              timeline_state := {}, is_current := true,
                              version := 1, created_by := "alice" }],
                  nextId := 1 } }).1) = some false) := by
  decide

/-- C7 (amended): the timeline GET route, on a project with no stored
snapshot, returns a synthesized, non-persisted empty default snapshot —
with empty layers and default scalar fields, but `version = 1` (not the
claimed 0) and `is_current = true` — without failing and without inserting
anything: the state is returned unchanged. -/
theorem get_default_empty_snapshot (env : Env) (pid uid : String)
    (pr : ProjectDoc)
    (hv : validateProjectAccess env.projects pid uid = some pr)
    (hnone : hasProj pid env.db.snaps = false) :
    api_get_timeline_state pid uid env =
      (.ok { sid := env.db.nextId, project_id := pid,
             timeline_state := emptyTimelineState, is_current := true,
             version := 1, description := none, created_by := uid,
             change_summary := none }, env) := by
  unfold api_get_timeline_state get_current_timeline_state
  rw [hv]
  have hfind : env.db.snaps.find? (isCur pid) = none := by
    rw [List.find?_eq_none]
    intro x hx hcx
    unfold hasProj at hnone
    rw [List.any_eq_false] at hnone
    exact hnone x hx (isCur_isProj pid x hcx)
  rw [hfind]

theorem get_default_empty_snapshot_witness :
    validateProjectAccess [{ id := "p1", user_id := "alice" }] "p1" "alice" =
      some { id := "p1", user_id := "alice" } ∧
    api_get_timeline_state "p1" "alice"
        (initEnv [{ id := "p1", user_id := "alice" }]) =
      (.ok { sid := 0, project_id := "p1",
             timeline_state := emptyTimelineState, is_current := true,
             version := 1, description := none, created_by := "alice",
             change_summary := none },
        initEnv [{ id := "p1", user_id := "alice" }]) :=
  ⟨by decide,
    get_default_empty_snapshot (initEnv [{ id := "p1", user_id := "alice" }])
      "p1" "alice" { id := "p1", user_id := "alice" } (by decide) (by decide)⟩

/-- C7 counterexample: the synthesized default snapshot carries
`version = 1`, not the `version = 0` the claim states. -/
theorem default_snapshot_version_one_counterexample :
    (Except.map SnapshotDoc.version
      (api_get_timeline_state "p1" "alice"
        (initEnv [{ id := "p1", user_id := "alice" }])).1 = .ok 1) ∧
    (Except.map SnapshotDoc.version
      (api_get_timeline_state "p1" "alice"
        (initEnv [{ id := "p1", user_id := "alice" }])).1 ≠ .ok 0) := by
  decide

/-! ## Segment-compiler lemmas -/

theorem cleanupTemps_append (l rest : FS) : cleanupTemps l (l ++ rest) = rest := by
  induction l with
  | nil => rfl
  | cons t ts ih =>
    unfold cleanupTemps at *
    simp only [List.foldl_cons, List.cons_append]
    have hc : (t :: (ts ++ rest)).contains t = true := by simp
    rw [if_pos hc, List.erase_cons_head]
    exact ih

theorem extractLoop_char (base : String) (eo : Nat → Bool) :
    ∀ (segs : List VideoSegment) (i : Nat) (fs : FS),
    (∀ j, i ≤ j → MediaFile.tempSegment j base ∉ fs) →
    (extractLoop base eo segs i fs).2.2.1 =
      fs ++ (extractLoop base eo segs i fs).2.1 ∧
    (∀ t ∈ (extractLoop base eo segs i fs).2.1,
      ∃ j, i ≤ j ∧ t = MediaFile.tempSegment j base) := by
  intro segs
  induction segs with
  | nil =>
    intro i fs h
    simp [extractLoop]
  | cons sg rest ih =>
    intro i fs h
    unfold extractLoop
    by_cases he : eo i = true
    · simp only [he, if_true]
      have hnot : MediaFile.tempSegment i base ∉ fs := h i (le_refl i)
      have hcre : fsCreate (MediaFile.tempSegment i base) fs =
          fs ++ [MediaFile.tempSegment i base] := by
        unfold fsCreate
        rw [if_neg]
        simp [hnot]
      rw [hcre]
      have h' : ∀ j, i + 1 ≤ j → MediaFile.tempSegment j base ∉
          fs ++ [MediaFile.tempSegment i base] := by
        intro j hj hmem
        rcases List.mem_append.mp hmem with hm | hm
        · exact h j (by omega) hm
        · simp only [List.mem_singleton, MediaFile.tempSegment.injEq] at hm
          omega
      obtain ⟨ha, hb⟩ := ih (i + 1) (fs ++ [MediaFile.tempSegment i base]) h'
      constructor
      · show (extractLoop base eo rest (i + 1)
          (fs ++ [MediaFile.tempSegment i base])).2.2.1 = _
        rw [ha]
        simp
      · intro t ht
        rcases List.mem_cons.mp ht with rfl | ht'
        · exact ⟨i, le_refl i, rfl⟩
        · obtain ⟨j, hj, rfl⟩ := hb t ht'
          exact ⟨j, by omega, rfl⟩
    · rw [Bool.not_eq_true] at he
      simp [he]

theorem extractLoop_all_ok (base : String) (eo : Nat → Bool) :
    ∀ (segs : List VideoSegment) (i : Nat) (fs : FS),
    (∀ j, j < segs.length → eo (i + j) = true) →
    (extractLoop base eo segs i fs).1 = true := by
  intro segs
  induction segs with
  | nil => intro i fs _; rfl
  | cons sg rest ih =>
    intro i fs h
    have he : eo i = true := by simpa using h 0 (by simp)
    unfold extractLoop
    simp only [he, if_true]
    exact ih (i + 1) _ fun j hj => by
      have := h (j + 1) (by simpa using Nat.succ_lt_succ hj)
      rwa [show i + (j + 1) = i + 1 + j by omega] at this

theorem extractLoop_inv_pos (base : String) (eo : Nat → Bool)
    (sg : VideoSegment) (rest : List VideoSegment) (i : Nat) (fs : FS) :
    1 ≤ (extractLoop base eo (sg :: rest) i fs).2.2.2 := by
  unfold extractLoop
  split <;> simp

/-- C3 (amended): in the multi-segment path, every per-segment temporary
extract file that was created is deleted on every exit — success,
extraction failure, or concatenation failure.  The concatenation list file,
however, is deleted only by the success path: on success only the output
file remains on disk, but when every extract succeeds and the
concatenation fails, `concat_list.txt` is left behind (the error-path
cleanup removes only `temp_files`). -/
theorem segment_cleanup (video_path : MediaFile)
    (segments : List VideoSegment) (extractOk : Nat → Bool)
    (concatOk : Bool) (h2 : 2 ≤ segments.length) :
    (∀ f ∈ (trim_video_segments video_path segments extractOk concatOk []).fs,
      f.isTempSegment = false) ∧
    (resultError? (trim_video_segments video_path segments extractOk
        concatOk []).result = none →
      (trim_video_segments video_path segments extractOk concatOk []).fs =
        [MediaFile.segmentsOutput (mediaBase video_path)]) ∧
    ((∀ i, i < segments.length → extractOk i = true) → concatOk = false →
      (trim_video_segments video_path segments extractOk concatOk []).fs =
        [MediaFile.concatList]) := by
  have hne : segments.isEmpty = false := by
    cases segments with
    | nil => simp at h2
    | cons a l => rfl
  have hlen : (segments.insertionSort
      (fun a b => a.startTime ≤ b.startTime)).length = segments.length :=
    List.length_insertionSort _ _
  unfold trim_video_segments
  rw [hne]
  simp only [Bool.false_eq_true, if_false]
  rcases hs : segments.insertionSort (fun a b => a.startTime ≤ b.startTime)
    with _ | ⟨a, _ | ⟨b, l2⟩⟩
  · rw [hs] at hlen; simp at hlen; omega
  · rw [hs] at hlen; simp at hlen; omega
  · simp only [hs]
    have hchar := extractLoop_char (mediaBase video_path) extractOk
      (a :: b :: l2) 0 [] (by simp)
    set r := extractLoop (mediaBase video_path) extractOk (a :: b :: l2) 0 []
      with hr
    obtain ⟨hfs, hshape⟩ := hchar
    rw [List.nil_append] at hfs
    have htempsne : MediaFile.concatList ∉ r.2.1 := by
      intro hmem
      obtain ⟨j, _, heq⟩ := hshape _ hmem
      exact MediaFile.noConfusion heq
    have houtne : MediaFile.segmentsOutput (mediaBase video_path) ∉ r.2.1 := by
      intro hmem
      obtain ⟨j, _, heq⟩ := hshape _ hmem
      exact MediaFile.noConfusion heq
    by_cases hok : r.1 = true
    · have hcre1 : fsCreate MediaFile.concatList r.2.2.1 =
          r.2.1 ++ [MediaFile.concatList] := by
        unfold fsCreate
        rw [hfs, if_neg (by simpa using htempsne)]
      cases hco : concatOk with
      | true =>
        have hcre2 : fsCreate (MediaFile.segmentsOutput (mediaBase video_path))
            (r.2.1 ++ [MediaFile.concatList]) =
            r.2.1 ++ [MediaFile.concatList,
              MediaFile.segmentsOutput (mediaBase video_path)] := by
          unfold fsCreate
          rw [if_neg (by simp [houtne])]
          rw [List.append_assoc]
          rfl
        have hclean : cleanupTemps r.2.1
            (r.2.1 ++ [MediaFile.concatList,
              MediaFile.segmentsOutput (mediaBase video_path)]) =
            [MediaFile.concatList,
              MediaFile.segmentsOutput (mediaBase video_path)] :=
          cleanupTemps_append _ _
        simp only [hok, if_true, hcre1, hcre2, hclean]
        refine ⟨?_, ?_, ?_⟩
        · intro f hf
          simp only [List.contains_cons] at hf ⊢
          have : f = MediaFile.segmentsOutput (mediaBase video_path) := by
            simpa using hf
          subst this
          rfl
        · intro _
          rfl
        · intro _ hcf
          simp at hcf
      | false =>
        have hclean : cleanupTemps r.2.1
            (r.2.1 ++ [MediaFile.concatList]) = [MediaFile.concatList] :=
          cleanupTemps_append _ _
        simp only [hok, if_true, hcre1, hclean]
        refine ⟨?_, ?_, ?_⟩
        · intro f hf
          have : f = MediaFile.concatList := by simpa using hf
          subst this
          rfl
        · intro habs
          simp [resultError?] at habs
        · intro _ _
          rfl
    · rw [Bool.not_eq_true] at hok
      have hclean : cleanupTemps r.2.1 r.2.2.1 = [] := by
        rw [hfs]
        have := cleanupTemps_append r.2.1 []
        rwa [List.append_nil] at this
      simp only [hok, Bool.false_eq_true, if_false, hclean]
      refine ⟨?_, ?_, ?_⟩
      · intro f hf
        simp at hf
      · intro habs
        simp [resultError?] at habs
      · intro hall _
        rw [hs] at hlen
        have := extractLoop_all_ok (mediaBase video_path) extractOk
          (a :: b :: l2) 0 [] (by
            intro j hj
            rw [Nat.zero_add]
            apply hall
            omega)
        rw [← hr] at this
        rw [this] at hok
        exact absurd hok (by simp)

theorem segment_cleanup_witness :
    2 ≤ ([{ startTime := (0 : Rat), duration := (5 : Rat) },
          { startTime := 10, duration := 5 }] : List VideoSegment).length ∧
    (trim_video_segments (.source "v.mp4")
      [{ startTime := 0, duration := 5 }, { startTime := 10, duration := 5 }]
      (fun _ => true) true []).fs = [MediaFile.segmentsOutput "v.mp4"] :=
  ⟨by decide,
    (segment_cleanup (.source "v.mp4")
      [{ startTime := 0, duration := 5 }, { startTime := 10, duration := 5 }]
      (fun _ => true) true (by decide)).2.1 (by decide)⟩

/-- C3 counterexample: two valid segments, both extracts succeed, the
concatenation step fails — the call exits with `concat_list.txt` still on
disk, so the concatenation list file is not deleted on every exit path. -/
theorem concat_list_leak_counterexample :
    (trim_video_segments (.source "v.mp4")
      [{ startTime := 0, duration := 5 }, { startTime := 10, duration := 5 }]
      (fun _ => true) false []).fs = [MediaFile.concatList] ∧
    (trim_video_segments (.source "v.mp4")
      [{ startTime := 0, duration := 5 }, { startTime := 10, duration := 5 }]
      (fun _ => true) false []).fs ≠ [] := by
  decide

/-- C5 (amended): the segment compiler performs no validation of
`start_time` or `duration` — `VideoSegment` declares both as unbounded
floats and `trim_video_segments` checks nothing: a non-empty list
containing a segment with `duration ≤ 0` or `start_time < 0` is never
rejected with `ValidationError`; instead the transcoder is invoked at
least once on it. -/
theorem invalid_segments_not_rejected (video_path : MediaFile)
    (segments : List VideoSegment) (extractOk : Nat → Bool)
    (concatOk : Bool) (fs : FS)
    (hinv : ∃ s ∈ segments, s.duration ≤ 0 ∨ s.startTime < 0) :
    1 ≤ (trim_video_segments video_path segments extractOk concatOk
      fs).invocations ∧
    ∀ m, (trim_video_segments video_path segments extractOk concatOk
      fs).result ≠ .error (.validationError m) := by
  obtain ⟨s0, hs0, _⟩ := hinv
  have hne : segments.isEmpty = false := by
    cases segments with
    | nil => simp at hs0
    | cons a l => rfl
  have hlen : (segments.insertionSort
      (fun a b => a.startTime ≤ b.startTime)).length = segments.length :=
    List.length_insertionSort _ _
  unfold trim_video_segments
  rw [hne]
  simp only [Bool.false_eq_true, if_false]
  rcases hs : segments.insertionSort (fun a b => a.startTime ≤ b.startTime)
    with _ | ⟨a, _ | ⟨b, l2⟩⟩
  · rw [hs] at hlen
    cases segments with
    | nil => simp at hs0
    | cons x xs => simp at hlen
  · simp only [hs]
    unfold trim_video
    split
    · exact ⟨le_refl 1, fun m h => by simp at h⟩
    · exact ⟨le_refl 1, fun m h => by simp at h⟩
  · simp only [hs]
    by_cases hok : (extractLoop (mediaBase video_path) extractOk
        (a :: b :: l2) 0 fs).1 = true
    · cases hco : concatOk with
      | true =>
        simp only [hok, if_true]
        exact ⟨by omega, fun m h => by simp at h⟩
      | false =>
        simp only [hok, if_true, Bool.false_eq_true, if_false]
        exact ⟨by omega, fun m h => by simp at h⟩
    · rw [Bool.not_eq_true] at hok
      simp only [hok, Bool.false_eq_true, if_false]
      refine ⟨?_, fun m h => by simp at h⟩
      exact extractLoop_inv_pos (mediaBase video_path) extractOk a (b :: l2)
        0 fs

theorem invalid_segments_not_rejected_witness :
    (∃ s ∈ ([{ startTime := (-1 : Rat), duration := (0 : Rat) },
             { startTime := 2, duration := -3 }] : List VideoSegment),
      s.duration ≤ 0 ∨ s.startTime < 0) ∧
    1 ≤ (trim_video_segments (.source "v.mp4")
      [{ startTime := -1, duration := 0 }, { startTime := 2, duration := -3 }]
      (fun _ => true) true []).invocations :=
  ⟨by decide,
    (invalid_segments_not_rejected (.source "v.mp4")
      [{ startTime := -1, duration := 0 }, { startTime := 2, duration := -3 }]
      (fun _ => true) true [] (by decide)).1⟩

/-- C5 counterexample: a list with `start_time = -1`, `duration = 0` and
`duration = -3` segments is not rejected before invoking the transcoder —
the transcoder runs three times (two extracts and one concatenation) and
the call succeeds. -/
theorem invalid_segments_counterexample :
    (trim_video_segments (.source "v.mp4")
      [{ startTime := -1, duration := 0 }, { startTime := 2, duration := -3 }]
      (fun _ => true) true []).invocations = 3 ∧
    (trim_video_segments (.source "v.mp4")
      [{ startTime := -1, duration := 0 }, { startTime := 2, duration := -3 }]
      (fun _ => true) true []).result =
      .ok (MediaFile.segmentsOutput "v.mp4") := by
  decide

end Snipix
